import Mathlib

/-
Verification of the paddle-game simulation core (src/app/page.tsx).

The embedding translates the TypeScript component state and its mutating
functions into pure Lean functions over explicit state records.
Conventions of the embedding:

- Numbers are rationals; the floating-point arithmetic of the source is
  modelled exactly over the rationals.
- Each call of Math.random() is threaded as an explicit rational parameter
  (or stream of parameters), constrained to [0, 1) in theorems where its
  range matters.
- The source compares Math.sqrt(dx^2 + dy^2) <= radius for containment;
  the model compares dx^2 + dy^2 <= radius^2, which is equivalent for the
  nonnegative radii the program uses.  Where the source passes the (in
  general irrational) distance value itself to calculatePoints, the model
  threads that value as an explicit parameter.
- Sparkle emission angles are stored in units of pi radians: the source
  value (i / 8) * Math.PI * 2 is stored as the rational coefficient
  (i / 8) * 2.
- The unbounded while-loop of addNewTarget is modelled with explicit fuel;
  a result of none for every fuel value means the source loop never exits.
-/

namespace PaddleGame

/-- Difficulty levels selectable from the menu (source: type Difficulty). -/
inductive Difficulty
  | easy
  | intermediate
  | hard
  deriving DecidableEq, Repr

/-- Target size classes (source: Target.size, values small and large). -/
inductive Size
  | small
  | large
  deriving DecidableEq, Repr

/-- A clickable circular target (source: interface Target). -/
structure Target where
  id : ℕ
  x : ℚ
  y : ℚ
  radius : ℚ
  size : Size
  velocity : ℚ
  direction : ℤ
  createdAt : ℚ
  deriving DecidableEq, Repr

/-- Transient floating score or label text (source: interface Feedback). -/
structure Feedback where
  x : ℚ
  y : ℚ
  text : String
  points : ℤ
  opacity : ℚ
  isMiss : Bool
  deriving DecidableEq, Repr

/-- Miss-indicator particle (source: interface Sparkle).  The angle field is
stored in units of pi radians; rotation holds the sampled initial rotation
value in radians and then advances by 0.15 per frame. -/
structure Sparkle where
  x : ℚ
  y : ℚ
  life : ℚ
  angle : ℚ
  speed : ℚ
  rotation : ℚ
  deriving DecidableEq, Repr

/-- End-of-session summary (source: interface GameStats). -/
structure GameStats where
  finalScore : ℤ
  perfectHits : ℕ
  totalHits : ℕ
  reactionTimes : List ℚ
  averageReactionTime : ℚ
  mode : Difficulty
  deriving DecidableEq, Repr

/-- The mutable per-session state (source: gameRef.current). -/
structure GameRef where
  score : ℤ
  timeLeft : ℚ
  targets : List Target
  feedback : List Feedback
  sparkles : List Sparkle
  nextTargetId : ℕ
  perfectHits : ℕ
  totalHits : ℕ
  mousePos : ℚ × ℚ
  reactionTimes : List ℚ
  deriving DecidableEq, Repr

/-- Canvas dimensions (source: canvasSize, set from the screen size). -/
structure Config where
  width : ℚ
  height : ℚ
  deriving DecidableEq, Repr

/-- TARGET_SPAWN_Y = CANVAS_HEIGHT * 0.4 -/
def spawnY (cfg : Config) : ℚ := cfg.height * (2 / 5)

/-- NET_Y = CANVAS_HEIGHT * 0.65; clicks strictly below this line are in the
penalty zone. -/
def netY (cfg : Config) : ℚ := cfg.height * (13 / 20)

/-- The Math.random() draws consumed by one call of addNewTarget: per-attempt
size and x draws for the rejection-sampling loop, one velocity draw, one
direction draw, and the Date.now() timestamp recorded as createdAt. -/
structure SpawnRands where
  sizeVal : ℕ → ℚ
  xVal : ℕ → ℚ
  velVal : ℚ
  dirVal : ℚ
  now : ℚ

/-- Size selection of one loop attempt (source line 135): easy always yields
large, otherwise a draw strictly above 0.5 yields large, else small. -/
def chooseSize (d : Difficulty) (r : ℚ) : Size :=
  if d = Difficulty.easy then Size.large
  else if r > 1 / 2 then Size.large else Size.small

/-- Fixed radius per size class (source line 136). -/
def sizeRadius : Size → ℚ
  | Size.large => 190
  | Size.small => 130

/-- The overlap test of the rejection loop (source lines 143 to 149): the
source computes Math.sqrt((x - target.x) ** 2), which is the absolute
x-distance, and rejects when it is below the radius sum plus 80. -/
def overlapsAny (targets : List Target) (x radius : ℚ) : Bool :=
  targets.any fun t => decide (|x - t.x| < radius + t.radius + 80)

/-- The rejection-sampling while-loop of addNewTarget (source lines 134 to
150), bounded by fuel.  The source loop has no bound at all; the fuel makes
the model total, and a result of none for every fuel value means the source
loop never exits.  The counter i indexes the attempts into the random
streams. -/
def findPlacementFrom (d : Difficulty) (W : ℚ) (targets : List Target)
    (sizeVal xVal : ℕ → ℚ) : ℕ → ℕ → Option (Size × ℚ × ℚ)
  | _, 0 => none
  | i, fuel + 1 =>
    let size := chooseSize d (sizeVal i)
    let radius := sizeRadius size
    let x := xVal i * (W - radius * 2) + radius
    if overlapsAny targets x radius then
      findPlacementFrom d W targets sizeVal xVal (i + 1) fuel
    else
      some (size, radius, x)

/-- The target record pushed by addNewTarget (source lines 155 to 164):
hard mode samples a velocity in [0.5, 2.0) as random * 1.5 + 0.5, other
difficulties get velocity 0; the direction draw gives 1 above 0.5, else -1;
all targets spawn at the fixed spawn height. -/
def spawnedTarget (cfg : Config) (d : Difficulty) (nextId : ℕ)
    (rnd : SpawnRands) (sz : Size) (radius x : ℚ) : Target :=
  { id := nextId
    x := x
    y := spawnY cfg
    radius := radius
    size := sz
    velocity := if d = Difficulty.hard then rnd.velVal * (3 / 2) + 1 / 2 else 0
    direction := if rnd.dirVal > 1 / 2 then 1 else -1
    createdAt := rnd.now }

/-- addNewTarget (source lines 129 to 165): run the placement loop, then push
one new target and advance the id counter.  none models the source loop
failing to exit within the given fuel. -/
def addNewTarget (cfg : Config) (d : Difficulty) (rnd : SpawnRands)
    (fuel : ℕ) (s : GameRef) : Option GameRef :=
  match findPlacementFrom d cfg.width s.targets rnd.sizeVal rnd.xVal 0 fuel with
  | none => none
  | some (sz, radius, x) =>
    some { s with
      targets := s.targets ++ [spawnedTarget cfg d s.nextTargetId rnd sz radius x]
      nextTargetId := s.nextTargetId + 1 }

/-- The freshly reset session state (source lines 103 to 114). -/
def initState : GameRef :=
  { score := 0
    timeLeft := 60
    targets := []
    feedback := []
    sparkles := []
    nextTargetId := 0
    perfectHits := 0
    totalHits := 0
    mousePos := (0, 0)
    reactionTimes := [] }

/-- initializeGame (source lines 101 to 126): reset the session state and
seed it with exactly two targets. -/
def initGame (cfg : Config) (d : Difficulty) (r1 r2 : SpawnRands)
    (fuel : ℕ) : Option GameRef :=
  (addNewTarget cfg d r1 fuel initState).bind (addNewTarget cfg d r2 fuel)

/-- Result of calculatePoints (source lines 168 to 181). -/
structure PointsResult where
  points : ℤ
  feedback : String
  deriving DecidableEq, Repr

/-- calculatePoints (source lines 168 to 181): accuracy is 1 - distance /
radius; above 0.95 the hit is PERFECT worth a flat 100, otherwise it is
worth floor(accuracy * 100) with a +points label. -/
def calculatePoints (distance radius : ℚ) : PointsResult :=
  let accuracy := 1 - distance / radius
  if accuracy > 19 / 20 then
    { points := 100, feedback := "PERFECT" }
  else
    let points := ⌊accuracy * 100⌋
    { points := points, feedback := "+" ++ toString points }

/-- Squared Euclidean distance between two points. -/
def distSq (x1 y1 x2 y2 : ℚ) : ℚ := (x1 - x2) ^ 2 + (y1 - y2) ^ 2

/-- Index of the target the click scan hits (source lines 209 to 213): the
scan walks the array from the last element down and stops at the first
containment success, so the hit index is the largest index whose target
contains the click.  Containment distance <= radius is encoded squared. -/
def lastContainingIdx (cx cy : ℚ) : List Target → Option ℕ
  | [] => none
  | t :: ts =>
    match lastContainingIdx cx cy ts with
    | some i => some (i + 1)
    | none => if distSq cx cy t.x t.y ≤ t.radius ^ 2 then some 0 else none

/-- The random draws and timestamp consumed by one click resolution:
per-sparkle speed draws, per-sparkle initial rotation values (each standing
for a sampled random * pi * 2), the draws of the replacement spawn, and the
Date.now() value of the click. -/
structure ClickRands where
  speedVal : ℕ → ℚ
  rotVal : ℕ → ℚ
  spawn : SpawnRands
  now : ℚ

/-- handleCanvasClick (source lines 184 to 264) for a click at (cx, cy)
during an active game.  distOf t stands for the Euclidean distance
Math.sqrt((cx - t.x)^2 + (cy - t.y)^2) the source passes to calculatePoints;
it is irrational in general, so the model threads it as data and theorems
constrain it where its value matters.  Priority: penalty zone first, then
the newest containing target, else a miss with an 8-sparkle burst. -/
def handleCanvasClick (cfg : Config) (d : Difficulty) (cx cy : ℚ)
    (distOf : Target → ℚ) (r : ClickRands) (fuel : ℕ) (s : GameRef) :
    Option GameRef :=
  if cy > netY cfg then
    some { s with
      feedback := s.feedback ++
        [{ x := cx, y := cy, text := "MISS", points := 0, opacity := 1,
           isMiss := false }]
      score := max 0 (s.score - 10) }
  else
    match lastContainingIdx cx cy s.targets with
    | some i =>
      match s.targets[i]? with
      | none => none
      | some t =>
        let res := calculatePoints (distOf t) t.radius
        let reactionTime := if t.createdAt ≠ 0 then r.now - t.createdAt else 0
        addNewTarget cfg d r.spawn fuel
          { s with
            reactionTimes := s.reactionTimes ++ [reactionTime]
            score := s.score + res.points
            totalHits := s.totalHits + 1
            perfectHits :=
              s.perfectHits + (if res.feedback = "PERFECT" then 1 else 0)
            feedback := s.feedback ++
              [{ x := t.x, y := t.y, text := res.feedback, points := res.points,
                 opacity := 1, isMiss := false }]
            targets := s.targets.eraseIdx i }
    | none =>
      some { s with
        feedback := s.feedback ++
          [{ x := cx, y := cy, text := "MISS", points := 0, opacity := 1,
             isMiss := true }]
        sparkles := s.sparkles ++ (List.range 8).map fun k =>
          { x := cx, y := cy, life := 1, angle := (k : ℚ) / 8 * 2,
            speed := 2 + r.speedVal k * 2, rotation := r.rotVal k } }

/-- Feedback aging of the draw loop (source lines 468 to 475): opacity drops
by 0.02, entries at or below 0 are pruned. -/
def ageFeedback (l : List Feedback) : List Feedback :=
  (l.map fun fb => { fb with opacity := fb.opacity - 1 / 50 }).filter
    fun fb => decide (fb.opacity > 0)

/-- Sparkle aging of the draw loop (source lines 410 to 425): life drops by
0.02, entries at or below 0 are pruned, survivors advance rotation by
0.15. -/
def ageSparkles (l : List Sparkle) : List Sparkle :=
  ((l.map fun sp => { sp with life := sp.life - 1 / 50 }).filter
    fun sp => decide (sp.life > 0)).map
    fun sp => { sp with rotation := sp.rotation + 3 / 20 }

/-- Per-frame drift of one target (source lines 337 to 344): targets with
positive velocity advance by direction * velocity and flip direction at the
canvas edges. -/
def moveTarget (W : ℚ) (t : Target) : Target :=
  if t.velocity > 0 then
    let x := t.x + t.direction * t.velocity
    let dir : ℤ :=
      if x - t.radius < 0 then 1
      else if x + t.radius > W then -1
      else t.direction
    { t with x := x, direction := dir }
  else t

/-- Hard-mode sinusoidal drift (source lines 534 to 541): the source adds
Math.sin(time * 2) * 2 to every x and clamps into [radius, width - radius];
osc stands for the transcendental sample sin(time * 2) * 2 of this frame. -/
def oscillate (W osc : ℚ) (t : Target) : Target :=
  { t with x := max t.radius (min (W - t.radius) (t.x + osc)) }

/-- The stats snapshot frozen at session end (source lines 550 to 563):
the mean of the recorded reaction times, or 0 when none were recorded. -/
def computeStats (d : Difficulty) (s : GameRef) : GameStats :=
  { finalScore := s.score
    perfectHits := s.perfectHits
    totalHits := s.totalHits
    reactionTimes := s.reactionTimes
    averageReactionTime :=
      if s.reactionTimes.length > 0 then
        s.reactionTimes.sum / (s.reactionTimes.length : ℚ)
      else 0
    mode := d }

/-- Result of one frame callback: the updated state, plus the frozen stats
when this frame ended the session. -/
structure FrameResult where
  state : GameRef
  ended : Option GameStats
  deriving DecidableEq, Repr

/-- The state mutation of one frame callback gameLoop (source lines 529 to
545): recompute the remaining time, apply hard-mode oscillation, then apply
drift and effect aging (the draw call).  This happens on every frame,
including the one that ends the session. -/
def frameAdvance (cfg : Config) (d : Difficulty) (startTime now osc : ℚ)
    (s : GameRef) : GameRef :=
  let elapsed := (now - startTime) / 1000
  let s1 := { s with timeLeft := max 0 (60 - elapsed) }
  let s2 :=
    if d = Difficulty.hard then
      { s1 with targets := s1.targets.map (oscillate cfg.width osc) }
    else s1
  { s2 with
    targets := s2.targets.map (moveTarget cfg.width)
    sparkles := ageSparkles s2.sparkles
    feedback := ageFeedback s2.feedback }

/-- One run of the frame callback gameLoop (source lines 529 to 567):
advance the state, then either re-arm (remaining time still positive) or
freeze the stats and transition to the end state. -/
def gameLoopStep (cfg : Config) (d : Difficulty) (startTime now osc : ℚ)
    (s : GameRef) : FrameResult :=
  let s3 := frameAdvance cfg d startTime now osc s
  { state := s3
    ended := if s3.timeLeft > 0 then none else some (computeStats d s3) }

/-- The frames of one session, each given as (now, osc).  The source re-arms
requestAnimationFrame only when the step did not end the session, so the
run stops at the first end transition and frames after it are never
processed. -/
def runFrames (cfg : Config) (d : Difficulty) (startTime : ℚ) :
    List (ℚ × ℚ) → GameRef → GameRef × Option GameStats
  | [], s => (s, none)
  | f :: fs, s =>
    let r := gameLoopStep cfg d startTime f.1 f.2 s
    match r.ended with
    | some st => (r.state, some st)
    | none => runFrames cfg d startTime fs r.state

/-- An event of an active session: a pointer-down or a frame callback. -/
inductive Op
  | click (cx cy : ℚ) (distOf : Target → ℚ) (r : ClickRands) (fuel : ℕ)
  | frame (now osc : ℚ)

/-- Apply one session event to the state. -/
def applyOp (cfg : Config) (d : Difficulty) (startTime : ℚ) (s : GameRef) :
    Op → Option GameRef
  | Op.click cx cy distOf r fuel => handleCanvasClick cfg d cx cy distOf r fuel s
  | Op.frame now osc => some (gameLoopStep cfg d startTime now osc s).state

/-- Apply a sequence of session events. -/
def runOps (cfg : Config) (d : Difficulty) (startTime : ℚ) :
    List Op → GameRef → Option GameRef
  | [], s => some s
  | op :: ops, s => (applyOp cfg d startTime s op).bind (runOps cfg d startTime ops)

/-
Concrete data used by the witness theorems below.
-/

/-- A 1000 x 1000 canvas for witnesses; its net line sits at y = 650. -/
def wCfg : Config := { width := 1000, height := 1000 }

/-- Degenerate spawn draws for witnesses: all draws 0, spawn timestamp 1. -/
def wSpawn : SpawnRands :=
  { sizeVal := fun _ => 0, xVal := fun _ => 0, velVal := 0, dirVal := 0, now := 1 }

/-- Degenerate click draws for witnesses. -/
def wClick : ClickRands :=
  { speedVal := fun _ => 0, rotVal := fun _ => 0, spawn := wSpawn, now := 0 }

/-- State after the penalty-zone click of the C2 witness. -/
def c2End : GameRef :=
  { initState with
    score := 0
    feedback := [{ x := 5, y := 700, text := "MISS", points := 0, opacity := 1,
                   isMiss := false }] }

/-- State after the empty-canvas miss click of the C6 witness. -/
def c6End : GameRef :=
  { initState with
    feedback := [{ x := 5, y := 100, text := "MISS", points := 0, opacity := 1,
                   isMiss := true }]
    sparkles := (List.range 8).map fun k =>
      { x := 5, y := 100, life := 1, angle := (k : ℚ) / 8 * 2, speed := 2,
        rotation := 0 } }

/-- A 400-unit-wide canvas: too narrow to place a second target at the
required 80-unit margin next to a large one. -/
def stuckCfg : Config := { width := 400, height := 1000 }

/-- A large target centered at x = 200 on the 400-wide canvas: every
candidate x of either size class overlaps it, so the source placement loop
can never exit. -/
def blockingTarget : Target :=
  { id := 0, x := 200, y := 400, radius := 190, size := Size.large,
    velocity := 0, direction := 1, createdAt := 0 }

/-- A 2000 x 1000 canvas for the C5 witness. -/
def c5Cfg : Config := { width := 2000, height := 1000 }

/-- Spawn draws placing the C5 witness target at x = 1000. -/
def c5Spawn : SpawnRands :=
  { sizeVal := fun _ => 0, xVal := fun _ => 1 / 2, velVal := 0, dirVal := 0,
    now := 1 }

/-- Start state of the C5 witness: one existing live target. -/
def c5State : GameRef := { initState with targets := [blockingTarget] }

/-- End state of the C5 witness spawn. -/
def c5End : GameRef :=
  { c5State with
    targets := [blockingTarget,
      { id := 0, x := 1000, y := 400, radius := 190, size := Size.large,
        velocity := 0, direction := -1, createdAt := 1 }]
    nextTargetId := 1 }

/-- Hard-mode spawn draws for the C9 witness. -/
def c9Spawn : SpawnRands :=
  { sizeVal := fun _ => 1, xVal := fun _ => 0, velVal := 0, dirVal := 1,
    now := 1 }

/-- End state of the C9 witness spawn: a hard-mode target with velocity
0.5 drifting right. -/
def c9End : GameRef :=
  { initState with
    targets := [{ id := 0, x := 190, y := 400, radius := 190,
                  size := Size.large, velocity := 1 / 2, direction := 1,
                  createdAt := 1 }]
    nextTargetId := 1 }

/-- Spawn draws placing the second seeded target of the C4 and C7
witnesses at x = 686, clear of the first one at x = 190. -/
def c4Spawn : SpawnRands :=
  { sizeVal := fun _ => 0, xVal := fun _ => 4 / 5, velVal := 0, dirVal := 0,
    now := 1 }

/-- The seeded session of the C4 and C7 witnesses: two large targets at
x = 190 and x = 686. -/
def c4State : GameRef :=
  { initState with
    targets :=
      [{ id := 0, x := 190, y := 400, radius := 190, size := Size.large,
         velocity := 0, direction := -1, createdAt := 1 },
       { id := 1, x := 686, y := 400, radius := 190, size := Size.large,
         velocity := 0, direction := -1, createdAt := 1 }]
    nextTargetId := 2 }

/-- The stats frozen by the C7 witness frame: an expired session with no
hits. -/
def c7Stats : GameStats :=
  { finalScore := 0, perfectHits := 0, totalHits := 0, reactionTimes := [],
    averageReactionTime := 0, mode := Difficulty.easy }

/-- C1: for a pointer resolved against a containing target (Euclidean
distance d to the center, 0 <= d <= radius), the accuracy is 1 - d / radius;
accuracy above 0.95 is PERFECT worth exactly 100 points, otherwise the award
is floor(accuracy * 100) with label +points; in particular a dead-center
pointer is PERFECT worth 100, and a pointer at d = radius is worth 0 with
label +0. -/
theorem c1_hit_scoring (d r : ℚ) (hd : 0 ≤ d) (hdr : d ≤ r) (hr : 0 < r) :
    ((1 - d / r > 19 / 20 →
        calculatePoints d r = { points := 100, feedback := "PERFECT" }) ∧
      (1 - d / r ≤ 19 / 20 →
        calculatePoints d r =
          { points := ⌊(1 - d / r) * 100⌋
            feedback := "+" ++ toString ⌊(1 - d / r) * 100⌋ })) ∧
    calculatePoints 0 r = { points := 100, feedback := "PERFECT" } ∧
    calculatePoints r r = { points := 0, feedback := "+0" } := by
  refine ⟨⟨fun h => ?_, fun h => ?_⟩, ?_, ?_⟩
  · simp only [calculatePoints, if_pos h]
  · simp only [calculatePoints, if_neg (not_lt.mpr h)]
  · have h0 : (0:ℚ) / r = 0 := zero_div r
    simp only [calculatePoints, h0, sub_zero]
    norm_num
  · have h1 : r / r = 1 := div_self hr.ne'
    simp only [calculatePoints, h1, sub_self]
    norm_num
    rfl

/-- Witness for C1 at a dead-center click (d = 0) on a large target
(r = 190). -/
theorem c1_hit_scoring_witness :
    (0:ℚ) ≤ 0 ∧ (0:ℚ) ≤ 190 ∧ (0:ℚ) < 190 ∧
    (((1 - (0:ℚ) / 190 > 19 / 20 →
        calculatePoints 0 190 = { points := 100, feedback := "PERFECT" }) ∧
      (1 - (0:ℚ) / 190 ≤ 19 / 20 →
        calculatePoints 0 190 =
          { points := ⌊(1 - (0:ℚ) / 190) * 100⌋
            feedback := "+" ++ toString ⌊(1 - (0:ℚ) / 190) * 100⌋ })) ∧
     calculatePoints 0 190 = { points := 100, feedback := "PERFECT" } ∧
     calculatePoints 190 190 = { points := 0, feedback := "+0" }) :=
  ⟨by norm_num, by norm_num, by norm_num,
    c1_hit_scoring 0 190 (by norm_num) (by norm_num) (by norm_num)⟩

/-- C10: a successful hit awards either exactly 100 points (the PERFECT
case) or an integer between 0 and 95 inclusive; values 96 to 99 are
impossible because non-perfect accuracy is at most 0.95. -/
theorem c10_points_range (d r : ℚ) (hd : 0 ≤ d) (hdr : d ≤ r) (hr : 0 < r) :
    (calculatePoints d r).points = 100 ∨
      (0 ≤ (calculatePoints d r).points ∧ (calculatePoints d r).points ≤ 95) := by
  by_cases hc : 1 - d / r > 19 / 20
  · left
    simp only [calculatePoints, if_pos hc]
  · right
    simp only [calculatePoints, if_neg hc]
    have hacc0 : 0 ≤ 1 - d / r := by
      have : d / r ≤ 1 := (div_le_one hr).mpr hdr
      linarith
    have hacc1 : 1 - d / r ≤ 19 / 20 := not_lt.mp hc
    constructor
    · exact Int.floor_nonneg.mpr (by positivity)
    · calc ⌊(1 - d / r) * 100⌋ ≤ ⌊(95:ℚ)⌋ := Int.floor_le_floor (by nlinarith)
        _ = 95 := by norm_num

/-- Witness for C10 at the exact mid-ring click d = 1, r = 2 (a 50-point
hit). -/
theorem c10_points_range_witness :
    (0:ℚ) ≤ 1 ∧ (1:ℚ) ≤ 2 ∧ (0:ℚ) < 2 ∧
    ((calculatePoints 1 2).points = 100 ∨
      (0 ≤ (calculatePoints 1 2).points ∧ (calculatePoints 1 2).points ≤ 95)) :=
  ⟨by norm_num, by norm_num, by norm_num,
    c10_points_range 1 2 (by norm_num) (by norm_num) (by norm_num)⟩

/-- C2: a click whose y-coordinate is in the penalty zone subtracts 10
points clamped at 0, records one zero-point MISS feedback event at the
click position, and never touches the targets or the hit counters, whatever
targets are live and wherever they sit. -/
theorem c2_penalty_zone (cfg : Config) (d : Difficulty) (cx cy : ℚ)
    (distOf : Target → ℚ) (r : ClickRands) (fuel : ℕ) (s s' : GameRef)
    (hy : cy > netY cfg)
    (h : handleCanvasClick cfg d cx cy distOf r fuel s = some s') :
    s'.score = max 0 (s.score - 10) ∧ 0 ≤ s'.score ∧
    s'.feedback = s.feedback ++
      [{ x := cx, y := cy, text := "MISS", points := 0, opacity := 1,
         isMiss := false }] ∧
    s'.targets = s.targets ∧
    s'.totalHits = s.totalHits ∧
    s'.perfectHits = s.perfectHits ∧
    s'.reactionTimes = s.reactionTimes ∧
    s'.sparkles = s.sparkles := by
  unfold handleCanvasClick at h
  rw [if_pos hy] at h
  obtain rfl := Option.some.inj h
  exact ⟨rfl, le_max_left 0 _, rfl, rfl, rfl, rfl, rfl, rfl⟩

/-- Witness for C2: a click at (5, 700) on the 1000-high canvas (net line at
650) from the fresh state. -/
theorem c2_penalty_zone_witness :
    (700 : ℚ) > netY wCfg ∧
    handleCanvasClick wCfg Difficulty.easy 5 700 (fun _ => 0) wClick 0
      initState = some c2End ∧
    (c2End.score = max 0 (initState.score - 10) ∧ 0 ≤ c2End.score ∧
     c2End.feedback = initState.feedback ++
       [{ x := 5, y := 700, text := "MISS", points := 0, opacity := 1,
          isMiss := false }] ∧
     c2End.targets = initState.targets ∧
     c2End.totalHits = initState.totalHits ∧
     c2End.perfectHits = initState.perfectHits ∧
     c2End.reactionTimes = initState.reactionTimes ∧
     c2End.sparkles = initState.sparkles) :=
  ⟨by norm_num [netY, wCfg], by norm_num [handleCanvasClick, netY, wCfg, initState, c2End],
    c2_penalty_zone wCfg Difficulty.easy 5 700 (fun _ => 0) wClick 0
      initState c2End (by norm_num [netY, wCfg])
      (by norm_num [handleCanvasClick, netY, wCfg, initState, c2End])⟩

/-- The click scan finds no target when the click is outside every live
target circle. -/
lemma lastContainingIdx_eq_none {cx cy : ℚ} {l : List Target}
    (h : ∀ t ∈ l, ¬ distSq cx cy t.x t.y ≤ t.radius ^ 2) :
    lastContainingIdx cx cy l = none := by
  induction l with
  | nil => rfl
  | cons t ts ih =>
    have hts : lastContainingIdx cx cy ts = none :=
      ih fun u hu => h u (List.mem_cons_of_mem _ hu)
    simp only [lastContainingIdx, hts]
    rw [if_neg (h t (List.mem_cons_self _ _))]

/-- C6: a click outside the penalty zone and outside every live target
appends exactly 8 sparkles at the click position with angles 0, 2 pi / 8,
..., 14 pi / 8 (stored here in units of pi) and per-particle speed in
[2, 4), plus one zero-point MISS feedback event flagged as a miss; the
score, the targets and the hit counters are untouched. -/
theorem c6_miss_sparkles (cfg : Config) (d : Difficulty) (cx cy : ℚ)
    (distOf : Target → ℚ) (r : ClickRands) (fuel : ℕ) (s s' : GameRef)
    (hy : ¬ cy > netY cfg)
    (hout : ∀ t ∈ s.targets, ¬ distSq cx cy t.x t.y ≤ t.radius ^ 2)
    (hrand : ∀ k, 0 ≤ r.speedVal k ∧ r.speedVal k < 1)
    (h : handleCanvasClick cfg d cx cy distOf r fuel s = some s') :
    s'.sparkles.length = s.sparkles.length + 8 ∧
    (s'.sparkles.drop s.sparkles.length).map Sparkle.angle
      = [0, 2 / 8, 4 / 8, 6 / 8, 8 / 8, 10 / 8, 12 / 8, 14 / 8] ∧
    (∀ sp ∈ s'.sparkles.drop s.sparkles.length,
      sp.x = cx ∧ sp.y = cy ∧ sp.life = 1 ∧ 2 ≤ sp.speed ∧ sp.speed < 4) ∧
    s'.feedback = s.feedback ++
      [{ x := cx, y := cy, text := "MISS", points := 0, opacity := 1,
         isMiss := true }] ∧
    s'.score = s.score ∧ s'.targets = s.targets ∧
    s'.totalHits = s.totalHits ∧ s'.perfectHits = s.perfectHits ∧
    s'.reactionTimes = s.reactionTimes := by
  unfold handleCanvasClick at h
  rw [if_neg hy, lastContainingIdx_eq_none hout] at h
  obtain rfl := Option.some.inj h
  refine ⟨?_, ?_, ?_, rfl, rfl, rfl, rfl, rfl, rfl⟩
  · simp [List.length_append]
  · rw [List.drop_left, List.map_map]
    norm_num [List.range_succ]
  · rw [List.drop_left]
    intro sp hsp
    obtain ⟨k, hk, rfl⟩ := List.mem_map.mp hsp
    obtain ⟨hk0, hk1⟩ := hrand k
    exact ⟨rfl, rfl, rfl, by nlinarith, by nlinarith⟩

/-- Witness for C6: a click at (5, 100) on the empty fresh state of the
1000-high canvas. -/
theorem c6_miss_sparkles_witness :
    ¬ (100 : ℚ) > netY wCfg ∧
    (∀ t ∈ initState.targets, ¬ distSq 5 100 t.x t.y ≤ t.radius ^ 2) ∧
    (∀ k, 0 ≤ wClick.speedVal k ∧ wClick.speedVal k < 1) ∧
    handleCanvasClick wCfg Difficulty.easy 5 100 (fun _ => 0) wClick 0
      initState = some c6End ∧
    (c6End.sparkles.length = initState.sparkles.length + 8 ∧
     (c6End.sparkles.drop initState.sparkles.length).map Sparkle.angle
       = [0, 2 / 8, 4 / 8, 6 / 8, 8 / 8, 10 / 8, 12 / 8, 14 / 8] ∧
     (∀ sp ∈ c6End.sparkles.drop initState.sparkles.length,
       sp.x = 5 ∧ sp.y = 100 ∧ sp.life = 1 ∧ 2 ≤ sp.speed ∧ sp.speed < 4) ∧
     c6End.feedback = initState.feedback ++
       [{ x := 5, y := 100, text := "MISS", points := 0, opacity := 1,
          isMiss := true }] ∧
     c6End.score = initState.score ∧ c6End.targets = initState.targets ∧
     c6End.totalHits = initState.totalHits ∧
     c6End.perfectHits = initState.perfectHits ∧
     c6End.reactionTimes = initState.reactionTimes) :=
  ⟨by norm_num [netY, wCfg], by simp [initState],
    fun k => by norm_num [wClick],
    by norm_num [handleCanvasClick, netY, wCfg, initState, c6End,
      lastContainingIdx, wClick, List.range_succ],
    c6_miss_sparkles wCfg Difficulty.easy 5 100 (fun _ => 0) wClick 0
      initState c6End (by norm_num [netY, wCfg]) (by simp [initState])
      (fun k => by norm_num [wClick])
      (by norm_num [handleCanvasClick, netY, wCfg, initState, c6End,
        lastContainingIdx, wClick, List.range_succ])⟩

/-- Every placement attempt on the 400-wide canvas next to blockingTarget
overlaps it, whichever size class the attempt draws. -/
lemma stuck_overlap (radius xr : ℚ) (hx0 : 0 ≤ xr) (hx1 : xr < 1)
    (hr : radius = 190 ∨ radius = 130) :
    overlapsAny [blockingTarget] (xr * (400 - radius * 2) + radius) radius
      = true := by
  simp only [overlapsAny, List.any_cons, List.any_nil, Bool.or_false,
    decide_eq_true_eq, blockingTarget]
  rcases hr with rfl | rfl
  · rw [abs_lt]
    constructor <;> linarith
  · rw [abs_lt]
    constructor <;> linarith

/-- The placement loop never exits on the stuck configuration, for every
fuel value and every attempt index. -/
lemma findPlacement_stuck (d : Difficulty) (sv xv : ℕ → ℚ)
    (hx : ∀ n, 0 ≤ xv n ∧ xv n < 1) :
    ∀ fuel i, findPlacementFrom d 400 [blockingTarget] sv xv i fuel = none := by
  intro fuel
  induction fuel with
  | zero => intro i; rfl
  | succ n ih =>
    intro i
    have hr : sizeRadius (chooseSize d (sv i)) = 190 ∨
        sizeRadius (chooseSize d (sv i)) = 130 := by
      cases chooseSize d (sv i) <;> simp [sizeRadius]
    simp only [findPlacementFrom]
    rw [if_pos (stuck_overlap (sizeRadius (chooseSize d (sv i))) (xv i)
      (hx i).1 (hx i).2 hr)]
    exact ih (i + 1)

/-- C3, settled as a bug in the code: the spawn loop of the source has no
retry bound and no unconstrained fallback.  On a 400-wide canvas with one
live large target at x = 200, every candidate position of either size class
fails the overlap test, so the fuel-bounded model fails for every retry
bound and every [0,1) random stream: the unbounded source while-loop never
exits on this input, contradicting the guarded-termination policy the claim
states. -/
theorem c3_spawn_never_terminates (d : Difficulty) (rnd : SpawnRands)
    (fuel : ℕ) (s : GameRef) (hs : s.targets = [blockingTarget])
    (hx : ∀ n, 0 ≤ rnd.xVal n ∧ rnd.xVal n < 1) :
    addNewTarget stuckCfg d rnd fuel s = none := by
  unfold addNewTarget
  rw [show stuckCfg.width = 400 from rfl, hs,
    findPlacement_stuck d rnd.sizeVal rnd.xVal hx fuel 0]

/-- Witness for C3: the stuck configuration with the all-zero draw stream
and retry bound 3. -/
theorem c3_spawn_never_terminates_witness :
    c5State.targets = [blockingTarget] ∧
    (∀ n, 0 ≤ wSpawn.xVal n ∧ wSpawn.xVal n < 1) ∧
    addNewTarget stuckCfg Difficulty.easy wSpawn 3 c5State = none :=
  ⟨rfl, fun _ => by norm_num [wSpawn],
    c3_spawn_never_terminates Difficulty.easy wSpawn 3 c5State rfl
      (fun _ => by norm_num [wSpawn])⟩

/-- A successful placement passed the overlap test and carries the radius
of its size class. -/
lemma findPlacementFrom_some {d : Difficulty} {W : ℚ} {ts : List Target}
    {sv xv : ℕ → ℚ} {sz : Size} {radius x : ℚ} :
    ∀ {fuel i : ℕ},
      findPlacementFrom d W ts sv xv i fuel = some (sz, radius, x) →
      overlapsAny ts x radius = false ∧ radius = sizeRadius sz := by
  intro fuel
  induction fuel with
  | zero => intro i h; cases h
  | succ n ih =>
    intro i h
    simp only [findPlacementFrom] at h
    by_cases hov : overlapsAny ts
        (xv i * (W - sizeRadius (chooseSize d (sv i)) * 2) +
          sizeRadius (chooseSize d (sv i)))
        (sizeRadius (chooseSize d (sv i))) = true
    · rw [if_pos hov] at h
      exact ih h
    · rw [if_neg hov] at h
      simp only [Option.some.injEq, Prod.mk.injEq] at h
      obtain ⟨rfl, rfl, rfl⟩ := h
      exact ⟨Bool.not_eq_true _ ▸ hov, rfl⟩

/-- Shape of a successful addNewTarget: the state is unchanged except that
one freshly built target is pushed and the id counter advances. -/
lemma addNewTarget_spec {cfg : Config} {d : Difficulty} {rnd : SpawnRands}
    {fuel : ℕ} {s s' : GameRef}
    (h : addNewTarget cfg d rnd fuel s = some s') :
    ∃ sz radius x,
      findPlacementFrom d cfg.width s.targets rnd.sizeVal rnd.xVal 0 fuel
        = some (sz, radius, x) ∧
      s' = { s with
        targets := s.targets ++
          [spawnedTarget cfg d s.nextTargetId rnd sz radius x]
        nextTargetId := s.nextTargetId + 1 } := by
  unfold addNewTarget at h
  cases hf : findPlacementFrom d cfg.width s.targets rnd.sizeVal rnd.xVal
      0 fuel with
  | none => rw [hf] at h; cases h
  | some p =>
    obtain ⟨sz, radius, x⟩ := p
    rw [hf] at h
    exact ⟨sz, radius, x, rfl, (Option.some.inj h).symm⟩

/-- C5: a successful spawn appends one target whose center, at spawn time,
is at least the sum of the two radii plus 80 away from every target then
live.  The source checks the x-distance only; since the Euclidean distance
dominates the x-distance, the Euclidean separation follows, stated here in
the squared form (for nonnegative bounds, distance at least s is equivalent
to squared distance at least s squared). -/
theorem c5_spawn_separation (cfg : Config) (d : Difficulty)
    (rnd : SpawnRands) (fuel : ℕ) (s s' : GameRef)
    (h : addNewTarget cfg d rnd fuel s = some s') :
    ∃ tnew, s'.targets = s.targets ++ [tnew] ∧
      ∀ t ∈ s.targets,
        tnew.radius + t.radius + 80 ≤ |tnew.x - t.x| ∧
        (0 ≤ t.radius →
          (tnew.radius + t.radius + 80) ^ 2 ≤
            (tnew.x - t.x) ^ 2 + (tnew.y - t.y) ^ 2) := by
  obtain ⟨sz, radius, x, hf, rfl⟩ := addNewTarget_spec h
  obtain ⟨hov, hrad⟩ := findPlacementFrom_some hf
  refine ⟨_, rfl, ?_⟩
  intro t ht
  have hnot : ¬ |x - t.x| < radius + t.radius + 80 := by
    simp only [overlapsAny, List.any_eq_false, decide_eq_true_eq] at hov
    exact hov t ht
  have hle : radius + t.radius + 80 ≤ |x - t.x| := not_lt.mp hnot
  have hxeq : (spawnedTarget cfg d s.nextTargetId rnd sz radius x).x = x := rfl
  have hreq : (spawnedTarget cfg d s.nextTargetId rnd sz radius x).radius
      = radius := rfl
  rw [hxeq, hreq]
  refine ⟨hle, fun htr => ?_⟩
  have hrpos : 0 ≤ radius := by
    rw [hrad]; cases sz <;> norm_num [sizeRadius]
  have hsum : 0 ≤ radius + t.radius + 80 := by linarith
  have hsq : (radius + t.radius + 80) ^ 2 ≤ (x - t.x) ^ 2 := by
    have := pow_le_pow_left₀ hsum hle 2
    rwa [sq_abs] at this
  have hy2 : 0 ≤ ((spawnedTarget cfg d s.nextTargetId rnd sz radius x).y
      - t.y) ^ 2 := sq_nonneg _
  linarith

/-- Witness for C5: a large target spawned at x = 1000 next to the live
target at x = 200 with radius 190; the separation bound is 460 and the
actual distance is 800. -/
theorem c5_spawn_separation_witness :
    addNewTarget c5Cfg Difficulty.easy c5Spawn 1 c5State = some c5End ∧
    (∃ tnew, c5End.targets = c5State.targets ++ [tnew] ∧
      ∀ t ∈ c5State.targets,
        tnew.radius + t.radius + 80 ≤ |tnew.x - t.x| ∧
        (0 ≤ t.radius →
          (tnew.radius + t.radius + 80) ^ 2 ≤
            (tnew.x - t.x) ^ 2 + (tnew.y - t.y) ^ 2)) :=
  ⟨by
      norm_num [addNewTarget, findPlacementFrom, overlapsAny, chooseSize,
        sizeRadius, spawnedTarget, spawnY, c5Cfg, c5Spawn, c5State, c5End,
        initState, blockingTarget]
      decide,
    c5_spawn_separation c5Cfg Difficulty.easy c5Spawn 1 c5State c5End
      (by
        norm_num [addNewTarget, findPlacementFrom, overlapsAny, chooseSize,
          sizeRadius, spawnedTarget, spawnY, c5Cfg, c5Spawn, c5State, c5End,
          initState, blockingTarget]
        decide)⟩

/-- C9: a spawned target has velocity exactly 0 under easy and intermediate
difficulty; under hard difficulty the velocity lies in [0.5, 2.0) (given a
[0,1) draw) and the direction is 1 or -1. -/
theorem c9_velocity_by_difficulty (cfg : Config) (d : Difficulty)
    (rnd : SpawnRands) (fuel : ℕ) (s s' : GameRef)
    (h : addNewTarget cfg d rnd fuel s = some s') :
    ∃ tnew, s'.targets = s.targets ++ [tnew] ∧
      ((d = Difficulty.easy ∨ d = Difficulty.intermediate) →
        tnew.velocity = 0) ∧
      (d = Difficulty.hard → 0 ≤ rnd.velVal → rnd.velVal < 1 →
        1 / 2 ≤ tnew.velocity ∧ tnew.velocity < 2 ∧
        (tnew.direction = 1 ∨ tnew.direction = -1)) := by
  obtain ⟨sz, radius, x, hf, rfl⟩ := addNewTarget_spec h
  refine ⟨_, rfl, ?_, ?_⟩
  · rintro (rfl | rfl) <;> simp [spawnedTarget]
  · rintro rfl h0 h1
    refine ⟨?_, ?_, ?_⟩
    · show 1 / 2 ≤ if Difficulty.hard = Difficulty.hard then
        rnd.velVal * (3 / 2) + 1 / 2 else 0
      rw [if_pos rfl]
      nlinarith
    · show (if Difficulty.hard = Difficulty.hard then
        rnd.velVal * (3 / 2) + 1 / 2 else 0) < 2
      rw [if_pos rfl]
      nlinarith
    · show (if rnd.dirVal > 1 / 2 then (1 : ℤ) else -1) = 1 ∨
        (if rnd.dirVal > 1 / 2 then (1 : ℤ) else -1) = -1
      by_cases hd : rnd.dirVal > 1 / 2
      · left; rw [if_pos hd]
      · right; rw [if_neg hd]

/-- Witness for C9: a hard-mode spawn with velocity draw 0 (velocity 0.5)
and direction draw 1 (direction 1). -/
theorem c9_velocity_by_difficulty_witness :
    addNewTarget wCfg Difficulty.hard c9Spawn 1 initState = some c9End ∧
    (∃ tnew, c9End.targets = initState.targets ++ [tnew] ∧
      ((Difficulty.hard = Difficulty.easy ∨
        Difficulty.hard = Difficulty.intermediate) → tnew.velocity = 0) ∧
      (Difficulty.hard = Difficulty.hard → 0 ≤ c9Spawn.velVal →
        c9Spawn.velVal < 1 →
        1 / 2 ≤ tnew.velocity ∧ tnew.velocity < 2 ∧
        (tnew.direction = 1 ∨ tnew.direction = -1))) :=
  ⟨by norm_num [addNewTarget, findPlacementFrom, overlapsAny, chooseSize,
      sizeRadius, spawnedTarget, spawnY, wCfg, c9Spawn, initState, c9End],
    c9_velocity_by_difficulty wCfg Difficulty.hard c9Spawn 1 initState c9End
      (by norm_num [addNewTarget, findPlacementFrom, overlapsAny, chooseSize,
        sizeRadius, spawnedTarget, spawnY, wCfg, c9Spawn, initState, c9End])⟩

/-- The state component of a frame step is the frame advance. -/
lemma gameLoopStep_state (cfg : Config) (d : Difficulty)
    (startTime now osc : ℚ) (s : GameRef) :
    (gameLoopStep cfg d startTime now osc s).state
      = frameAdvance cfg d startTime now osc s := rfl

/-- The end component of a frame step, as an explicit conditional. -/
lemma gameLoopStep_ended (cfg : Config) (d : Difficulty)
    (startTime now osc : ℚ) (s : GameRef) :
    (gameLoopStep cfg d startTime now osc s).ended
      = if (frameAdvance cfg d startTime now osc s).timeLeft > 0 then none
        else some (computeStats d (frameAdvance cfg d startTime now osc s)) :=
  rfl

/-- A frame advance preserves the target count, the reaction times and the
hit counter, and writes the remaining-time formula of the source. -/
lemma frameAdvance_fields (cfg : Config) (d : Difficulty)
    (startTime now osc : ℚ) (s : GameRef) :
    (frameAdvance cfg d startTime now osc s).targets.length
        = s.targets.length ∧
    (frameAdvance cfg d startTime now osc s).reactionTimes
        = s.reactionTimes ∧
    (frameAdvance cfg d startTime now osc s).totalHits = s.totalHits ∧
    (frameAdvance cfg d startTime now osc s).timeLeft
        = max 0 (60 - (now - startTime) / 1000) := by
  unfold frameAdvance
  by_cases hd : d = Difficulty.hard
  · simp [hd]
  · simp [hd]

/-- The hit index of the click scan is a valid index. -/
lemma lastContainingIdx_lt_length {cx cy : ℚ} {l : List Target} {i : ℕ}
    (h : lastContainingIdx cx cy l = some i) : i < l.length := by
  induction l generalizing i with
  | nil => cases h
  | cons t ts ih =>
    simp only [lastContainingIdx] at h
    cases hts : lastContainingIdx cx cy ts with
    | some j =>
      rw [hts] at h
      obtain rfl := Option.some.inj h
      simp only [List.length_cons]
      exact Nat.succ_lt_succ (ih hts)
    | none =>
      rw [hts] at h
      by_cases hc : distSq cx cy t.x t.y ≤ t.radius ^ 2
      · rw [if_pos hc] at h
        obtain rfl := Option.some.inj h
        simp
      · rw [if_neg hc] at h
        cases h

/-- A processed click preserves the live-target count and moves the hit
counter and reaction-time list in lockstep: the penalty and miss branches
touch neither, and the hit branch appends exactly one reaction time,
increments the hit counter once, and replaces the removed target by the
one spawned. -/
lemma handleCanvasClick_counts {cfg : Config} {d : Difficulty} {cx cy : ℚ}
    {distOf : Target → ℚ} {r : ClickRands} {fuel : ℕ} {s s' : GameRef}
    (h : handleCanvasClick cfg d cx cy distOf r fuel s = some s') :
    s'.targets.length = s.targets.length ∧
    s'.reactionTimes.length + s.totalHits
      = s.reactionTimes.length + s'.totalHits := by
  unfold handleCanvasClick at h
  by_cases hy : cy > netY cfg
  · rw [if_pos hy] at h
    obtain rfl := Option.some.inj h
    exact ⟨rfl, rfl⟩
  · rw [if_neg hy] at h
    cases hidx : lastContainingIdx cx cy s.targets with
    | none =>
      rw [hidx] at h
      obtain rfl := Option.some.inj h
      exact ⟨rfl, rfl⟩
    | some i =>
      rw [hidx] at h
      dsimp only at h
      cases hget : s.targets[i]? with
      | none =>
        rw [hget] at h
        dsimp only at h
        cases h
      | some t =>
        rw [hget] at h
        dsimp only at h
        obtain ⟨sz, radius, x, hf, rfl⟩ := addNewTarget_spec h
        have hilt : i < s.targets.length := lastContainingIdx_lt_length hidx
        constructor
        · simp only [List.length_append, List.length_cons, List.length_nil,
            List.length_eraseIdx_of_lt hilt]
          omega
        · simp only [List.length_append, List.length_cons, List.length_nil]
          omega

/-- Each session event preserves the live-target count. -/
lemma applyOp_length {cfg : Config} {d : Difficulty} {startTime : ℚ}
    {s : GameRef} {op : Op} {s' : GameRef}
    (h : applyOp cfg d startTime s op = some s') :
    s'.targets.length = s.targets.length := by
  cases op with
  | click cx cy distOf r fuel => exact (handleCanvasClick_counts h).1
  | frame now osc =>
    obtain rfl := Option.some.inj h
    exact (frameAdvance_fields cfg d startTime now osc s).1

/-- Each session event preserves the reaction-time-count equals hit-count
invariant. -/
lemma applyOp_inv {cfg : Config} {d : Difficulty} {startTime : ℚ}
    {s : GameRef} {op : Op} {s' : GameRef}
    (h : applyOp cfg d startTime s op = some s')
    (hs : s.reactionTimes.length = s.totalHits) :
    s'.reactionTimes.length = s'.totalHits := by
  cases op with
  | click cx cy distOf r fuel =>
    have h2 := (handleCanvasClick_counts h).2
    omega
  | frame now osc =>
    obtain rfl := Option.some.inj h
    show (frameAdvance cfg d startTime now osc s).reactionTimes.length
      = (frameAdvance cfg d startTime now osc s).totalHits
    rw [(frameAdvance_fields cfg d startTime now osc s).2.1,
      (frameAdvance_fields cfg d startTime now osc s).2.2.1]
    exact hs

/-- A predicate preserved by every session event is preserved by every
event sequence. -/
lemma runOps_preserves {cfg : Config} {d : Difficulty} {startTime : ℚ}
    (P : GameRef → Prop)
    (hstep : ∀ s op s', applyOp cfg d startTime s op = some s' → P s → P s') :
    ∀ (ops : List Op) (s s' : GameRef),
      runOps cfg d startTime ops s = some s' → P s → P s' := by
  intro ops
  induction ops with
  | nil =>
    intro s s' h hp
    obtain rfl := Option.some.inj h
    exact hp
  | cons op ops ih =>
    intro s s' h hp
    simp only [runOps] at h
    cases hop : applyOp cfg d startTime s op with
    | none =>
      rw [hop] at h
      cases h
    | some s1 =>
      rw [hop] at h
      exact ih s1 s' h (hstep s op s1 hop hp)

/-- The seeded session state holds exactly 2 targets, no reaction times and
no hits. -/
lemma initGame_fields {cfg : Config} {d : Difficulty} {r1 r2 : SpawnRands}
    {fuel : ℕ} {s0 : GameRef} (h : initGame cfg d r1 r2 fuel = some s0) :
    s0.targets.length = 2 ∧ s0.reactionTimes.length = s0.totalHits := by
  unfold initGame at h
  cases h1 : addNewTarget cfg d r1 fuel initState with
  | none =>
    rw [h1] at h
    cases h
  | some sA =>
    rw [h1] at h
    simp only [Option.some_bind] at h
    obtain ⟨sz1, rad1, x1, hf1, rfl⟩ := addNewTarget_spec h1
    obtain ⟨sz2, rad2, x2, hf2, rfl⟩ := addNewTarget_spec h
    simp [initState]

/-- C4: a session seeded by initializeGame holds exactly 2 live targets,
and still holds exactly 2 after every sequence of clicks and frames: a hit
removes exactly the hit target and the replacement spawn restores the
count, and no other event changes it. -/
theorem c4_target_count_invariant (cfg : Config) (d : Difficulty)
    (r1 r2 : SpawnRands) (fuel : ℕ) (startTime : ℚ) (ops : List Op)
    (s0 s : GameRef) (h0 : initGame cfg d r1 r2 fuel = some s0)
    (h : runOps cfg d startTime ops s0 = some s) :
    s0.targets.length = 2 ∧ s.targets.length = 2 := by
  have h2 := (initGame_fields h0).1
  exact ⟨h2, runOps_preserves (fun st => st.targets.length = 2)
    (fun sa op sb hop hp => (applyOp_length hop).trans hp)
    ops s0 s h h2⟩

/-- Witness for C4: the seeded easy session on the 1000 x 1000 canvas with
no further events. -/
theorem c4_target_count_invariant_witness :
    initGame wCfg Difficulty.easy wSpawn c4Spawn 1 = some c4State ∧
    runOps wCfg Difficulty.easy 0 [] c4State = some c4State ∧
    (c4State.targets.length = 2 ∧ c4State.targets.length = 2) :=
  ⟨by norm_num [initGame, addNewTarget, findPlacementFrom, overlapsAny,
      chooseSize, sizeRadius, spawnedTarget, spawnY, wCfg, wSpawn, c4Spawn,
      initState, c4State, (show Difficulty.easy ≠ Difficulty.hard by decide)],
   rfl,
   c4_target_count_invariant wCfg Difficulty.easy wSpawn c4Spawn 1 0 []
     c4State c4State
     (by norm_num [initGame, addNewTarget, findPlacementFrom, overlapsAny,
       chooseSize, sizeRadius, spawnedTarget, spawnY, wCfg, wSpawn, c4Spawn,
       initState, c4State, (show Difficulty.easy ≠ Difficulty.hard by decide)])
     rfl⟩

/-- A frozen end snapshot is the stats of the advanced state. -/
lemma gameLoopStep_ended_some {cfg : Config} {d : Difficulty}
    {startTime now osc : ℚ} {s : GameRef} {st : GameStats}
    (h : (gameLoopStep cfg d startTime now osc s).ended = some st) :
    st = computeStats d (frameAdvance cfg d startTime now osc s) := by
  rw [gameLoopStep_ended] at h
  split at h
  · cases h
  · exact (Option.some.inj h).symm

/-- C7: the stats frozen at the transition out of a session seeded by
initializeGame satisfy: the reaction-time list length equals the hit
counter (every hit appends one time and increments the counter once), the
average reaction time is 0 when there were no hits, and otherwise it is the
arithmetic mean of the recorded times. -/
theorem c7_stats_well_formed (cfg : Config) (d : Difficulty)
    (r1 r2 : SpawnRands) (fuel : ℕ) (startTime now osc : ℚ) (ops : List Op)
    (s0 s : GameRef) (st : GameStats)
    (h0 : initGame cfg d r1 r2 fuel = some s0)
    (h : runOps cfg d startTime ops s0 = some s)
    (hend : (gameLoopStep cfg d startTime now osc s).ended = some st) :
    st.reactionTimes.length = st.totalHits ∧
    (st.totalHits = 0 → st.averageReactionTime = 0) ∧
    (st.totalHits ≠ 0 →
      st.averageReactionTime
        = st.reactionTimes.sum / (st.reactionTimes.length : ℚ)) := by
  have hinv := runOps_preserves
    (fun sa => sa.reactionTimes.length = sa.totalHits)
    (fun sa op sb hop hp => applyOp_inv hop hp) ops s0 s h
    (initGame_fields h0).2
  obtain rfl := gameLoopStep_ended_some hend
  have hrt := (frameAdvance_fields cfg d startTime now osc s).2.1
  have hth := (frameAdvance_fields cfg d startTime now osc s).2.2.1
  have hlen : (frameAdvance cfg d startTime now osc s).reactionTimes.length
      = (frameAdvance cfg d startTime now osc s).totalHits := by
    rw [hrt, hth]
    exact hinv
  refine ⟨hlen, ?_, ?_⟩
  · intro hz
    have hz' : (frameAdvance cfg d startTime now osc s).reactionTimes.length
        = 0 := by
      rw [hlen]
      exact hz
    simp [computeStats, hz']
  · intro hnz
    have hnz2 : (frameAdvance cfg d startTime now osc s).totalHits ≠ 0 := hnz
    have hpos : 0 < (frameAdvance cfg d startTime now osc s).reactionTimes.length := by
      rw [hlen]
      omega
    simp [computeStats, hpos]

/-- Witness for C7: the seeded easy session ending on a frame 60 seconds
after the start, with no hits recorded. -/
theorem c7_stats_well_formed_witness :
    initGame wCfg Difficulty.easy wSpawn c4Spawn 1 = some c4State ∧
    runOps wCfg Difficulty.easy 0 [] c4State = some c4State ∧
    (gameLoopStep wCfg Difficulty.easy 0 60000 0 c4State).ended
      = some c7Stats ∧
    (c7Stats.reactionTimes.length = c7Stats.totalHits ∧
     (c7Stats.totalHits = 0 → c7Stats.averageReactionTime = 0) ∧
     (c7Stats.totalHits ≠ 0 →
       c7Stats.averageReactionTime
         = c7Stats.reactionTimes.sum / (c7Stats.reactionTimes.length : ℚ))) :=
  ⟨by norm_num [initGame, addNewTarget, findPlacementFrom, overlapsAny,
      chooseSize, sizeRadius, spawnedTarget, spawnY, wCfg, wSpawn, c4Spawn,
      initState, c4State, (show Difficulty.easy ≠ Difficulty.hard by decide)],
   rfl,
   by norm_num [gameLoopStep, frameAdvance, computeStats, ageSparkles,
     ageFeedback, moveTarget, wCfg, c4State, initState, spawnY, c7Stats,
     (show Difficulty.easy ≠ Difficulty.hard by decide)],
   c7_stats_well_formed wCfg Difficulty.easy wSpawn c4Spawn 1 0 60000 0 []
     c4State c4State c7Stats
     (by norm_num [initGame, addNewTarget, findPlacementFrom, overlapsAny,
       chooseSize, sizeRadius, spawnedTarget, spawnY, wCfg, wSpawn, c4Spawn,
       initState, c4State, (show Difficulty.easy ≠ Difficulty.hard by decide)])
     rfl
     (by norm_num [gameLoopStep, frameAdvance, computeStats, ageSparkles,
       ageFeedback, moveTarget, wCfg, c4State, initState, spawnY, c7Stats,
       (show Difficulty.easy ≠ Difficulty.hard by decide)])⟩

/-- A frame step ends the session exactly when the recomputed remaining
time is 0: the remaining time is clamped at 0, and the callback is re-armed
whenever it is positive. -/
lemma gameLoopStep_ended_iff (cfg : Config) (d : Difficulty)
    (startTime now osc : ℚ) (s : GameRef) :
    (gameLoopStep cfg d startTime now osc s).ended.isSome ↔
      (gameLoopStep cfg d startTime now osc s).state.timeLeft = 0 := by
  rw [gameLoopStep_ended, gameLoopStep_state]
  have htl := (frameAdvance_fields cfg d startTime now osc s).2.2.2
  by_cases hpos : (frameAdvance cfg d startTime now osc s).timeLeft > 0
  · rw [if_pos hpos]
    simp only [Option.isSome_none, Bool.false_eq_true, false_iff]
    exact fun h0 => lt_irrefl 0 (h0 ▸ hpos)
  · rw [if_neg hpos]
    simp only [Option.isSome_some, true_iff]
    have h0 : 0 ≤ (frameAdvance cfg d startTime now osc s).timeLeft := by
      rw [htl]
      exact le_max_left 0 _
    exact le_antisymm (not_lt.mp hpos) h0

/-- A frame run produces an end transition exactly when some frame of the
list lies at least 60 elapsed seconds after the session start; the run
stops at the first such frame, so later frames are never processed. -/
lemma runFrames_isSome (cfg : Config) (d : Difficulty) (startTime : ℚ) :
    ∀ (frames : List (ℚ × ℚ)) (s : GameRef),
      (runFrames cfg d startTime frames s).2.isSome ↔
        ∃ f ∈ frames, 60 ≤ (f.1 - startTime) / 1000 := by
  intro frames
  induction frames with
  | nil =>
    intro s
    simp [runFrames]
  | cons f fs ih =>
    intro s
    simp only [runFrames]
    rw [gameLoopStep_ended]
    have htl := (frameAdvance_fields cfg d startTime f.1 f.2 s).2.2.2
    by_cases hpos : (frameAdvance cfg d startTime f.1 f.2 s).timeLeft > 0
    · rw [if_pos hpos]
      dsimp only
      rw [ih]
      have hlt : (f.1 - startTime) / 1000 < 60 := by
        rw [htl] at hpos
        by_contra hge
        push_neg at hge
        have hz : max 0 (60 - (f.1 - startTime) / 1000) = 0 :=
          max_eq_left (by linarith)
        rw [hz] at hpos
        exact lt_irrefl 0 hpos
      constructor
      · rintro ⟨g, hg, hge⟩
        exact ⟨g, List.mem_cons_of_mem _ hg, hge⟩
      · rintro ⟨g, hg, hge⟩
        rcases List.mem_cons.mp hg with rfl | hg'
        · exact absurd hge (not_le.mpr hlt)
        · exact ⟨g, hg', hge⟩
    · rw [if_neg hpos]
      dsimp only
      simp only [Option.isSome_some, true_iff]
      refine ⟨f, List.mem_cons_self _ _, ?_⟩
      rw [htl] at hpos
      by_contra hlt
      push_neg at hlt
      exact hpos (lt_max_of_lt_right (by linarith))

/-- C8: every frame recomputes the remaining time as max(0, 60 - elapsed
seconds); a frame ends the session exactly when that remaining time is 0,
never while it is positive; and a frame run transitions at most once,
exactly at the first frame at least 60 seconds after the start (runFrames
schedules no frame after the transition by construction). -/
theorem c8_session_clock :
    (∀ (cfg : Config) (d : Difficulty) (startTime now osc : ℚ) (s : GameRef),
      (gameLoopStep cfg d startTime now osc s).state.timeLeft
          = max 0 (60 - (now - startTime) / 1000) ∧
      ((gameLoopStep cfg d startTime now osc s).ended.isSome ↔
        (gameLoopStep cfg d startTime now osc s).state.timeLeft = 0)) ∧
    (∀ (cfg : Config) (d : Difficulty) (startTime : ℚ)
        (frames : List (ℚ × ℚ)) (s : GameRef),
      (runFrames cfg d startTime frames s).2.isSome ↔
        ∃ f ∈ frames, 60 ≤ (f.1 - startTime) / 1000) :=
  ⟨fun cfg d startTime now osc s =>
    ⟨(frameAdvance_fields cfg d startTime now osc s).2.2.2,
      gameLoopStep_ended_iff cfg d startTime now osc s⟩,
   fun cfg d startTime frames s => runFrames_isSome cfg d startTime frames s⟩

end PaddleGame
